import Mathlib

/-!
Verification of the display-layer core of `prompt_toolkit` (file
`src/prompt_toolkit/layout/controls.py`): `UIContent` height computation and
indexing, `FormattedTextControl` content creation and mouse handling, and
`BufferControl` content creation, search preview and mouse handling.

Python integers are modelled as `Nat`/`Int`, fragment text as `String` or
`List Char`, raised exceptions as `Option`/explicit result constructors, and
the fallible `while` loop of `get_height_for_line` with explicit fuel (the
fuel provably suffices in every terminating case, so `none` models actual
non-termination of the Python loop).  External collaborators that are not part
of the source file (`Document`, `Buffer`, `SearchState`, `split_lines`,
mouse-event types) are modelled from the specification and marked as such.
-/

/-- The large sentinel height `10 ** 8` used by `UIContent.get_height_for_line`
and `UIContent.get_height_for_text` for degenerate layouts. -/
def SENTINEL : Nat := 10 ^ 8

/-- The `while text_width > width` loop of `UIContent.get_height_for_line`.
`p` is the display width of the continuation prefix (the source recomputes
`get_line_prefix(width, lineno, True)` each iteration with identical
arguments, so as a pure function it is a constant).  Each iteration increments
the height, subtracts `width` from the remaining text width, aborts with the
sentinel when the continuation prefix alone is wider than `width`, and
otherwise adds the prefix width back.  Fuel models the possibility that the
Python loop never terminates (when `p = width` and the text overflows):
`none` is returned exactly in that case. -/
def wrapWhile (width p : Nat) : Nat → Nat → Nat → Option Nat
  | 0, _, _ => none
  | fuel + 1, height, textWidth =>
    if width < textWidth then
      if width < p then some SENTINEL
      else wrapWhile width p fuel (height + 1) (textWidth - width + p)
    else some height

/-- `UIContent.get_height_for_line(lineno, width, get_line_prefix)`.
`lw lineno` models `get_cwidth(fragment_list_to_text(self.get_line(lineno)))`
(the display width of the line's plain text) and `glp width lineno is_cont`
models the display width of `get_line_prefix(width, lineno, is_cont)` (with
`glp = fun _ _ _ => 0` when no `get_line_prefix` is given, matching the
`lambda *a: []` default).  The per-render cache keyed by
`(render_counter, lineno, width)` is advisory and dropped here; on
`width == 0` the source returns the sentinel `10 ** 8`. -/
def get_height_for_line (lw : Nat → Nat) (lineno width : Nat)
    (glp : Nat → Nat → Bool → Nat) : Option Nat :=
  if width = 0 then some SENTINEL
  else
    wrapWhile width (glp width lineno true)
      (lw lineno + glp width lineno false + 1) 1
      (lw lineno + glp width lineno false)

/-- Specification-side description of the wrapping loop, following the spec's
words: starting from `height = 1` and the accumulated text width, while the
text width exceeds `width` the height is incremented, `width` is subtracted
and the continuation-prefix width `p` is added back; if `p` alone exceeds
`width` the computation aborts with the large sentinel. -/
inductive HeightSpec (width p : Nat) : Nat → Nat → Nat → Prop
  | done {h tw : Nat} : tw ≤ width → HeightSpec width p h tw h
  | abort {h tw : Nat} : width < tw → width < p → HeightSpec width p h tw SENTINEL
  | step {h tw r : Nat} : width < tw → p ≤ width →
      HeightSpec width p (h + 1) (tw - width + p) r → HeightSpec width p h tw r

/-- The ceiling division `ceil(a / b)` used by the spec's height formula. -/
def ceil_div (a b : Nat) : Nat := (a + b - 1) / b

/-- An `(x, y)` screen coordinate (`prompt_toolkit.layout.screen.Point`). -/
structure Point where
  x : Int
  y : Int
deriving DecidableEq, Repr

/-- A `(style, text)` fragment after mouse handlers have been stripped. -/
abbrev Frag2 := String × String

/-- Python indexing `xs[i]` on a list: non-negative indices from the front,
negative indices from the back, `none` for `IndexError`. -/
def pyListGet {α : Type} (xs : List α) (i : Int) : Option α :=
  if 0 ≤ i then xs.get? i.toNat
  else if 0 ≤ i + xs.length then xs.get? (i + xs.length).toNat
  else none

/-- Result of a Python mouse handler call: the `NotImplemented` marker, or the
implicit `None` returned when a function body falls through (which callers do
not treat as "not handled"). -/
inductive MouseRet
  | notImplemented
  | pyNone
deriving DecidableEq, Repr

/-- Modelled from the spec: the mouse-event kinds delivered by the host
(`prompt_toolkit.mouse_events.MouseEventType` is not part of the source file).
`mouseDown` is a press, `mouseUp` a release, the scroll kinds are "other". -/
inductive MouseEventType
  | mouseDown
  | mouseUp
  | scrollUp
  | scrollDown
deriving DecidableEq, Repr

/-- A mouse event: a position and an event kind. -/
structure MouseEvent where
  position : Point
  event_type : MouseEventType
deriving DecidableEq, Repr

/-- A fragment possibly carrying a clickable-region mouse handler
(`(style, text, handler)` three-tuples of `FormattedTextControl`). -/
abbrev Frag := String × String × Option (MouseEvent → MouseRet)

/-- Splitting a character list on newline characters; Python's
`"".split("\n") == [""]` behaviour: always at least one (possibly empty)
part, one more part per newline. -/
def splitNl : List Char → List (List Char)
  | [] => [[]]
  | c :: rest =>
    match splitNl rest with
    | [] => [[c]]
    | l :: ls => if c = '\n' then [] :: l :: ls else (c :: l) :: ls

/-- Python `text.split("\n")` on a string. -/
def splitTextNl (s : String) : List String := (splitNl s.data).map String.mk

/-- One step of `split_lines`: distribute a fragment whose text was split on
newlines over the current line and the accumulator.  Middle parts that are
empty contribute no fragment; the final part is always appended (even when
empty). -/
def split_lines_go : List (List Frag) → List Frag → List Frag →
    List (List Frag)
  | acc, line, [] => acc ++ [line]
  | acc, line, (s, t, h) :: rest =>
    let parts := splitTextNl t
    let mids := parts.dropLast
    let lastp := parts.getLastD ""
    match mids with
    | [] => split_lines_go acc (line ++ [(s, t, h)]) rest
    | m :: ms =>
      let first := line ++ (if m = "" then [] else [(s, m, h)])
      let middles := ms.map
        (fun q => if q = "" then ([] : List Frag) else [(s, q, h)])
      split_lines_go (acc ++ [first] ++ middles) [(s, lastp, h)] rest

/-- Modelled from the spec: `split_lines` from
`prompt_toolkit.formatted_text.utils` (not part of the source file) splits a
fragment stream into a list of lines on the newline characters inside the
fragment texts, always yielding at least one line. -/
def split_lines (frs : List Frag) : List (List Frag) := split_lines_go [] [] frs

/-- `UIContent.__getitem__`: return `get_line(lineno)` when
`lineno < line_count`, otherwise raise `IndexError` (modelled as `none`).
`get_line` itself may fail, hence its `Option` result; note that the source
performs no lower-bound check. -/
def UIContent_getitem (line_count : Int) (get_line : Int → Option (List Frag2))
    (i : Int) : Option (List Frag2) :=
  if i < line_count then get_line i else none

/-- Python `marker in hay` substring containment. -/
def strContains (hay marker : String) : Bool :=
  (List.range (hay.length + 1)).any
    (fun i => marker.data.isPrefixOf (hay.data.drop i))

/-- Scan one fragment line for a marker substring in the style strings,
accumulating the `x` offset by each fragment's text length — the inner loop of
`get_cursor_position` in `FormattedTextControl.create_content`. -/
def scanLineForMarker (marker : String) : Nat → List Frag2 → Option Nat
  | _, [] => none
  | x, (s, t) :: rest =>
    if strContains s marker then some x
    else scanLineForMarker marker (x + t.length) rest

/-- Scan the fragment lines in order for a marker, returning the `(x, y)`
coordinate where it is first encountered — the outer loop of
`get_cursor_position` in `FormattedTextControl.create_content`. -/
def scanMarkerGo (marker : String) : Nat → List (List Frag2) → Option Point
  | _, [] => none
  | y, line :: rest =>
    match scanLineForMarker marker 0 line with
    | some x => some ⟨(x : Int), (y : Int)⟩
    | none => scanMarkerGo marker (y + 1) rest

/-- The full marker scan over the stripped fragment lines. -/
def scanMarker (marker : String) (lines : List (List Frag2)) : Option Point :=
  scanMarkerGo marker 0 lines

/-- Strip the optional mouse handler from a fragment (`tuple(item[:2])`). -/
def strip3 (f : Frag) : Frag2 := (f.1, f.2.1)

/-- The stripped per-line fragment lists of `FormattedTextControl`:
`split_lines` of the formatted text, with mouse handlers removed. -/
def ftc_fragment_lines (frs : List Frag) : List (List Frag2) :=
  (split_lines frs).map (List.map strip3)

/-- The `UIContent` produced by a control, as the screen-painting layer
consumes it (the `get_line` closure is totalised with `[]` out of range; the
out-of-range behaviour itself is modelled by `UIContent_getitem`). -/
structure UIContentM where
  get_line : Nat → List Frag2
  line_count : Nat
  cursor_position : Point
  menu_position : Option Point
  show_cursor : Bool

/-- `FormattedTextControl.create_content`: split the fragments into lines,
strip mouse handlers, record the fragment stream for `mouse_handler`
(the second component), resolve the cursor position from the caller-supplied
`get_cursor_position` when present and otherwise from the
`[SetCursorPosition]` marker scan (`None` falling back to `Point(0,0)` inside
`UIContent`), and resolve the menu position from the `[SetMenuPosition]`
scan.  The bounded content cache is advisory and dropped. -/
def ftc_create_content (frs : List Frag)
    (get_cursor_position_cb : Option (Unit → Option Point))
    (show_cursor : Bool) : UIContentM × Option (List Frag) :=
  let lines := ftc_fragment_lines frs
  let cp :=
    match get_cursor_position_cb with
    | some f => f ()
    | none => scanMarker "[SetCursorPosition]" lines
  ({ get_line := fun i => (lines.get? i).getD []
     line_count := lines.length
     cursor_position := cp.getD ⟨0, 0⟩
     menu_position := scanMarker "[SetMenuPosition]" lines
     show_cursor := show_cursor },
   some frs)

/-- The fragment walk of `FormattedTextControl.mouse_handler`: accumulate text
lengths until the running total reaches the click column; if that fragment
carries a handler, call it and propagate its result verbatim, otherwise stop
(`break`) and report not-handled. -/
def ftcScanFragments (ev : MouseEvent) (xpos : Int) :
    Nat → List Frag → MouseRet
  | _, [] => .notImplemented
  | count, (_, t, h) :: rest =>
    let count2 := count + t.length
    if xpos ≤ (count2 : Int) then
      match h with
      | some handler => handler ev
      | none => .notImplemented
    else ftcScanFragments ev xpos count2 rest

/-- `FormattedTextControl.mouse_handler`: not-handled when no fragments have
been rendered (`self._fragments` unset or empty, both falsy), not-handled when
the click row is outside the rendered lines (`IndexError` caught), and
otherwise the fragment walk above. -/
def ftc_mouse_handler (st_fragments : Option (List Frag)) (ev : MouseEvent) :
    MouseRet :=
  match st_fragments with
  | none => .notImplemented
  | some frs =>
    if frs.isEmpty then .notImplemented
    else
      match pyListGet (split_lines frs) ev.position.y with
      | none => .notImplemented
      | some frags => ftcScanFragments ev ev.position.x 0 frags

/-- Whether some fragment of the line carries the marker in its style. -/
def lineHasMarker (marker : String) (line : List Frag2) : Bool :=
  line.any (fun g => strContains g.1 marker)

/-- Row of the first line containing the marker, if any (specification-side
characterisation used to state C8). -/
def firstMarkerRow (marker : String) : List (List Frag2) → Option Nat
  | [] => none
  | l :: rest =>
    if lineHasMarker marker l then some 0
    else (firstMarkerRow marker rest).map (· + 1)

/-- Column of the first marker in a line: total text length of the fragments
strictly before the first marked fragment. -/
def markerCol (marker : String) (line : List Frag2) : Nat :=
  ((line.takeWhile (fun g => !(strContains g.1 marker))).map
    (fun g => g.2.length)).sum

/-- Specification-side "first encountered" marker position: the first line
holding the marker, at the column of the text preceding the first marked
fragment there. -/
def firstMarkerPoint (marker : String) (lines : List (List Frag2)) :
    Option Point :=
  match firstMarkerRow marker lines with
  | some j => some ⟨(markerCol marker ((lines.get? j).getD []) : Int), (j : Int)⟩
  | none => none

/-- Modelled from the spec: the selection kinds of
`prompt_toolkit.selection.SelectionType` (not part of the source file). -/
inductive SelectionType
  | CHARACTERS
  | LINES
  | BLOCK
deriving DecidableEq, Repr

/-- Modelled from the spec: a selection in progress, anchored at the cursor
position where the selection started. -/
structure SelectionStateM where
  original_cursor_position : Int
  type : SelectionType
deriving DecidableEq, Repr

/-- Modelled from the spec: the text buffer (`prompt_toolkit.buffer.Buffer` is
not part of the source file): current text, cursor offset and selection
state. -/
structure BufferM where
  text : List Char
  cursor_position : Int
  selection_state : Option SelectionStateM
deriving DecidableEq, Repr

/-- Modelled from the spec: `Buffer.exit_selection` clears the selection. -/
def exit_selection (b : BufferM) : BufferM := { b with selection_state := none }

/-- Modelled from the spec: `Buffer.start_selection` anchors a new selection
at the current cursor position. -/
def start_selection (b : BufferM) (ty : SelectionType) : BufferM :=
  { b with selection_state := some ⟨b.cursor_position, ty⟩ }

/-- Clamp a Python index into the valid offset range `[0, len(text)]` of a
document. -/
def clampPos (t : List Char) (i : Int) : Nat := min t.length (max 0 i).toNat

/-- The lines of a document text (`Document.lines`). -/
def textLines (t : List Char) : List (List Char) := splitNl t

/-- Number of lines of a document (`Document.line_count`). -/
def line_count_of (t : List Char) : Nat := (textLines t).length

/-- Offset of the first character of row `r` within the text. -/
def lineStartIndex (lines : List (List Char)) (r : Nat) : Nat :=
  ((lines.take r).map (fun l => l.length + 1)).sum

/-- Modelled from the spec: `Document.translate_row_col_to_index`, the
row/col → offset conversion; out-of-range rows and columns are clamped into
range, and the result is kept within `[0, len(text)]`. -/
def translate_row_col_to_index (t : List Char) (row col : Int) : Int :=
  let lines := textLines t
  let r : Nat := min (lines.length - 1) (max 0 row).toNat
  let line := (lines.get? r).getD []
  let res := lineStartIndex lines r + min line.length (max 0 col).toNat
  (min t.length res : Nat)

/-- Row of the (clamped) offset `p`: newlines before it. -/
def cursorRowAt (t : List Char) (p : Nat) : Nat := (t.take p).count '\n'

/-- Column of the (clamped) offset `p`: distance to the last newline before
it. -/
def cursorColAt (t : List Char) (p : Nat) : Nat :=
  ((t.take p).reverse.takeWhile (fun c => c ≠ '\n')).length

/-- Modelled from the spec: `Document.translate_index_to_position`, the
offset → (row, col) conversion, with the offset clamped into range. -/
def translate_index_to_position (t : List Char) (i : Int) : Nat × Nat :=
  let p := clampPos t i
  (cursorRowAt t p, cursorColAt t p)

/-- Characters that belong to a word for word-boundary lookup. -/
def isWordChar (c : Char) : Bool := c.isAlphanum || c = '_'

/-- Start offset of the word-character run containing (ending at) `p`. -/
def wordStartAt (t : List Char) (p : Nat) : Nat :=
  p - ((t.take p).reverse.takeWhile isWordChar).length

/-- End offset of the word-character run containing (starting at) `p`. -/
def wordEndAt (t : List Char) (p : Nat) : Nat :=
  p + ((t.drop p).takeWhile isWordChar).length

/-- Modelled from the spec: `Document.find_boundaries_of_current_word`, the
word-boundary lookup.  Returns offsets relative to the cursor: the first
component is `word_start - cursor` (non-positive) and the second is
`word_end - cursor` (non-negative), for the maximal run of word characters
around the cursor. -/
def find_boundaries_of_current_word (t : List Char) (pos : Int) : Int × Int :=
  let p := clampPos t pos
  ((wordStartAt t p : Int) - p, (wordEndAt t p : Int) - p)

/-- Modelled from the spec: the search direction of
`prompt_toolkit.search.SearchState` (not part of the source file). -/
inductive SearchDirection
  | forward
  | backward
deriving DecidableEq, Repr

/-- Modelled from the spec: `SearchState` — search text, direction and case
sensitivity. -/
structure SearchStateM where
  text : List Char
  direction : SearchDirection
  ignore_case : Bool
deriving DecidableEq, Repr

/-- Modelled from the spec: the defaults of the `SearchState()` constructor —
empty text, forward direction, case-sensitive. -/
def default_search_state : SearchStateM := ⟨[], .forward, false⟩

/-- Case folding applied before matching when the search ignores case. -/
def applyCase (ignore_case : Bool) (t : List Char) : List Char :=
  if ignore_case then t.map Char.toLower else t

/-- First match position of `pat` in `hay` at or after `start`. -/
def findSubstrFrom (hay pat : List Char) (start : Nat) : Option Nat :=
  (List.range (hay.length + 1)).find?
    (fun i => decide (start ≤ i) && pat.isPrefixOf (hay.drop i))

/-- Last match position of `pat` in `hay` strictly before `stop`. -/
def findSubstrBefore (hay pat : List Char) (stop : Nat) : Option Nat :=
  (List.range stop).reverse.find? (fun i => pat.isPrefixOf (hay.drop i))

/-- A document snapshot: text plus cursor offset. -/
structure DocumentM where
  text : List Char
  cursor_position : Int
deriving DecidableEq, Repr

/-- The document currently held by a buffer. -/
def buffer_document (b : BufferM) : DocumentM := ⟨b.text, b.cursor_position⟩

/-- Modelled from the spec: `Buffer.document_for_search` derives an alternate
document matching a search state without mutating the original — same text,
cursor conceptually moved to the next/previous match according to the search
state's direction and case sensitivity (unchanged when there is no match). -/
def document_for_search (b : BufferM) (ss : SearchStateM) : DocumentM :=
  let hay := applyCase ss.ignore_case b.text
  let pat := applyCase ss.ignore_case ss.text
  let p := clampPos b.text b.cursor_position
  let mpos :=
    match ss.direction with
    | .forward => findSubstrFrom hay pat (p + 1)
    | .backward => findSubstrBefore hay pat p
  ⟨b.text, mpos.elim b.cursor_position (fun n => (n : Int))⟩

/-- A processed line: the transformed fragments of one source line and the
forward/inverse coordinate maps composed by the transformation pipeline. -/
structure ProcessedLineM where
  fragments : List Frag2
  source_to_display : Int → Int
  display_to_source : Int → Int

/-- Modelled from the spec: the search field attached to a `BufferControl` —
a `SearchBufferControl` with its buffer text and its owned
`searcher_search_state`. -/
structure SearchControlM where
  buffer_text : List Char
  searcher_search_state : SearchStateM

/-- The mutable state of a `BufferControl` together with the ambient
application state it reads: `focused` models
`get_app().layout.current_control == self` and `is_search_target` models
`get_app().layout.search_target_buffer_control == self`.  `menu_position`
holds the result of the optional menu-position callback and `complete_state`
the cursor position of the completion's original document when a completion
is in progress. -/
structure BCState where
  buffer : BufferM
  complete_state : Option Int
  preview_search : Bool
  search_control : Option SearchControlM
  is_search_target : Bool
  focused : Bool
  focus_on_click : Bool
  menu_position : Option Int
  last_proc : Option (Int → ProcessedLineM)
  last_click_timestamp : Option Rat

/-- The `BufferControl.search_state` property as a value: the attached search
control's shared `SearchState` when present, a fresh default one otherwise
(object identity is modelled separately for C10). -/
def search_state_of (st : BCState) : SearchStateM :=
  match st.search_control with
  | some sc => sc.searcher_search_state
  | none => default_search_state

/-- The `preview_now` condition of `BufferControl.create_content`: the
explicit argument, or preview enabled together with an attached search
control holding non-empty text while this control is the active search
target. -/
def preview_now (st : BCState) (preview_arg : Bool) : Bool :=
  preview_arg ||
    (st.preview_search &&
      (match st.search_control with
       | some sc => !sc.buffer_text.isEmpty
       | none => false) &&
      st.is_search_target)

/-- The document rendered by `BufferControl.create_content`: the search
preview document when `preview_now` holds (the Python code unconditionally
dereferences the search control there, so the preview branch requires one),
the buffer's real document otherwise. -/
def renderedDocument (st : BCState) (preview_arg : Bool) : DocumentM :=
  match st.search_control, preview_now st preview_arg with
  | some sc, true =>
    document_for_search st.buffer
      ⟨sc.buffer_text, (search_state_of st).direction,
        (search_state_of st).ignore_case⟩
  | _, _ => buffer_document st.buffer

/-- The per-line pipeline of `_create_get_processed_line_func`: lex the
document's line, then apply the merged processor.  `lexed` models
`self.lexer.lex_document(document)` (a function of the document text) and
`proc` models `merged_processor.apply_transformation` on the transformation
input (document, width, height, line number, fragments); the per-call caches
are advisory and dropped. -/
def bc_processed_line (lexed : List Char → Int → List Frag2)
    (proc : DocumentM → Nat → Option Nat → Int → List Frag2 → ProcessedLineM)
    (width : Nat) (height : Option Nat) (st : BCState) (preview_arg : Bool)
    (i : Int) : ProcessedLineM :=
  proc (renderedDocument st preview_arg) width height i
    (lexed (renderedDocument st preview_arg).text i)

/-- `translate_rowcol` of `BufferControl.create_content`: map a source
row/column through the processed line's forward map. -/
def translate_rowcol (gpl : Int → ProcessedLineM) (row col : Nat) : Point :=
  ⟨(gpl (row : Int)).source_to_display (col : Int), (row : Int)⟩

/-- The content of a `BufferControl` render (`show_cursor` is left at its
`UIContent` default). -/
structure BCContent where
  get_line : Nat → List Frag2
  line_count : Nat
  cursor_position : Point
  menu_position : Option Point

/-- The menu-position logic of `BufferControl.create_content`: only computed
when this control holds the focus; the explicit callback wins, otherwise the
completion anchor is the smaller of the buffer cursor and the completion's
original cursor, translated through the real document's offset → position
conversion and the processed line's forward map. -/
def bc_menu_position (st : BCState) (gpl : Int → ProcessedLineM) :
    Option Point :=
  if st.focused then
    match st.menu_position with
    | some mp =>
      let rc := translate_index_to_position st.buffer.text mp
      some (translate_rowcol gpl rc.1 rc.2)
    | none =>
      match st.complete_state with
      | some orig =>
        let m := min st.buffer.cursor_position orig
        let rc := translate_index_to_position st.buffer.text m
        some (translate_rowcol gpl rc.1 rc.2)
      | none => none
  else none

/-- `BufferControl.create_content`: choose the (possibly preview) document,
build the per-line pipeline function, record it for `mouse_handler`
(`self._last_get_processed_line`), and expose the content whose lines are the
processed fragments with one extra blank-styled space appended, whose line
count is the document's, and whose cursor/menu positions are translated
through the forward maps. -/
def bc_create_content (lexed : List Char → Int → List Frag2)
    (proc : DocumentM → Nat → Option Nat → Int → List Frag2 → ProcessedLineM)
    (width : Nat) (height : Option Nat) (st : BCState) (preview_arg : Bool) :
    BCContent × BCState :=
  let doc := renderedDocument st preview_arg
  let gpl := bc_processed_line lexed proc width height st preview_arg
  let p := clampPos doc.text doc.cursor_position
  let content : BCContent :=
    { get_line := fun i => (gpl (i : Int)).fragments ++ [("", " ")]
      line_count := line_count_of doc.text
      cursor_position :=
        translate_rowcol gpl (cursorRowAt doc.text p) (cursorColAt doc.text p)
      menu_position := bc_menu_position st gpl }
  (content, { st with last_proc := some gpl })

/-- The focused branch of `BufferControl.mouse_handler` once a processed-line
function has been recorded: translate the click through the inverse map and
the row/col → offset conversion; a press clears the selection and moves the
cursor; a release starts a character selection when the offset moved by more
than one, detects a double click from the remembered release timestamp
(within 0.3 seconds) and then expands the selection to the word boundaries
around the cursor; scroll events are not handled. -/
def bc_mouse_focused (st : BCState) (gpl : Int → ProcessedLineM) (now : Rat)
    (ev : MouseEvent) : MouseRet × BCState :=
  let xpos := (gpl ev.position.y).display_to_source ev.position.x
  let index := translate_row_col_to_index st.buffer.text ev.position.y xpos
  match ev.event_type with
  | .mouseDown =>
    (.pyNone,
     { st with buffer :=
        { (exit_selection st.buffer) with cursor_position := index } })
  | .mouseUp =>
    let b := st.buffer
    let b1 :=
      if 1 < (b.cursor_position - index).natAbs then
        { (start_selection b SelectionType.CHARACTERS) with
            cursor_position := index }
      else b
    let dc : Bool :=
      match st.last_click_timestamp with
      | some t => decide (now - t < 3 / 10)
      | none => false
    let b2 :=
      if dc then
        let se := find_boundaries_of_current_word b1.text b1.cursor_position
        let bA := { b1 with cursor_position := b1.cursor_position + se.1 }
        let bB := start_selection bA SelectionType.CHARACTERS
        { bB with cursor_position := bB.cursor_position + (se.2 - se.1) }
      else b1
    (.pyNone, { st with buffer := b2, last_click_timestamp := some now })
  | _ => (.notImplemented, st)

/-- `BufferControl.mouse_handler`: when focused, dispatch to the branch above
if content has been rendered and otherwise fall through (Python returns the
implicit `None`, not `NotImplemented`); when unfocused, claim the focus on a
release if `focus_on_click` is enabled and report not-handled otherwise. -/
def bc_mouse_handler (st : BCState) (now : Rat) (ev : MouseEvent) :
    MouseRet × BCState :=
  if st.focused then
    match st.last_proc with
    | some gpl => bc_mouse_focused st gpl now ev
    | none => (.pyNone, st)
  else
    if st.focus_on_click = true ∧ ev.event_type = MouseEventType.mouseUp then
      (.pyNone, { st with focused := true })
    else (.notImplemented, st)

/-- A heap of `SearchState` objects, for modelling Python object identity in
the `search_state` property (C10). -/
structure SSStore where
  heap : List SearchStateM
deriving DecidableEq, Repr

/-- Allocate a fresh `SearchState` object, returning its address. -/
def ssAlloc (st : SSStore) (v : SearchStateM) : Nat × SSStore :=
  (st.heap.length, ⟨st.heap ++ [v]⟩)

/-- Read a `SearchState` object from the heap. -/
def ssRead (st : SSStore) (a : Nat) : Option SearchStateM := st.heap.get? a

/-- Mutate a `SearchState` object in place. -/
def ssWrite (st : SSStore) (a : Nat) (v : SearchStateM) : SSStore :=
  ⟨st.heap.set a v⟩

/-- The `BufferControl.search_state` property with object identity: when a
search control is attached, return (the address of) its shared
`searcher_search_state`; otherwise construct and return a fresh default
`SearchState()`. -/
def bc_search_state (search_buffer_control : Option Nat) (st : SSStore) :
    Nat × SSStore :=
  match search_buffer_control with
  | some a => (a, st)
  | none => ssAlloc st default_search_state

/-- A focused `BufferControl` state before any content has been rendered. -/
def stUnrendered : BCState :=
  { buffer := ⟨[], 0, none⟩
    complete_state := none
    preview_search := false
    search_control := none
    is_search_target := false
    focused := true
    focus_on_click := false
    menu_position := none
    last_proc := none
    last_click_timestamp := none }

/-- An identity processed-line function over the single line `"hello"`. -/
def gplHello : Int → ProcessedLineM :=
  fun _ => ⟨[("", "hello")], fun c => c, fun c => c⟩

/-- A focused, rendered `BufferControl` over the document `"hello"`. -/
def stHello : BCState :=
  { stUnrendered with
      buffer := ⟨"hello".data, 0, none⟩
      last_proc := some gplHello }

/-- An identity processed-line function over the single line `"foo bar"`. -/
def gplFooBar : Int → ProcessedLineM :=
  fun _ => ⟨[("", "foo bar")], fun c => c, fun c => c⟩

/-- A focused, rendered `BufferControl` over `"foo bar"` with the cursor
inside `"bar"` and a release recorded at time 0. -/
def stFooBar : BCState :=
  { stUnrendered with
      buffer := ⟨"foo bar".data, 5, none⟩
      last_proc := some gplFooBar
      last_click_timestamp := some 0 }

/-- A search field holding the text `"ba"`. -/
def scBa : SearchControlM := ⟨"ba".data, default_search_state⟩

/-- A `BufferControl` over `"foo bar"` with incremental-search preview
enabled, the search field above attached, and this control the active search
target. -/
def stPreview : BCState :=
  { stUnrendered with
      buffer := ⟨"foo bar".data, 0, none⟩
      preview_search := true
      search_control := some scBa
      is_search_target := true
      focused := false }

/-- A trivial lexer: the whole text as one unstyled fragment per line. -/
def lexId : List Char → Int → List Frag2 := fun t _ => [("", String.mk t)]

/-- An identity transformation pipeline. -/
def procId : DocumentM → Nat → Option Nat → Int → List Frag2 →
    ProcessedLineM :=
  fun _ _ _ _ frs => ⟨frs, fun c => c, fun c => c⟩

theorem wrapWhile_sound (width p : Nat) :
    ∀ fuel h tw r, wrapWhile width p fuel h tw = some r →
      HeightSpec width p h tw r := by
  intro fuel
  induction fuel with
  | zero => intro h tw r hr; simp [wrapWhile] at hr
  | succ f ih =>
    intro h tw r hr
    by_cases h1 : width < tw
    · by_cases h2 : width < p
      · simp only [wrapWhile, if_pos h1, if_pos h2, Option.some.injEq] at hr
        exact hr ▸ HeightSpec.abort h1 h2
      · simp only [wrapWhile, if_pos h1, if_neg h2] at hr
        exact HeightSpec.step h1 (Nat.le_of_not_lt h2) (ih _ _ _ hr)
    · simp only [wrapWhile, if_neg h1, Option.some.injEq] at hr
      exact hr ▸ HeightSpec.done (Nat.le_of_not_lt h1)

theorem heightSpec_stall (width : Nat) :
    ∀ h tw r, width < tw → ¬ HeightSpec width width h tw r := by
  intro h tw r h1 hd
  induction hd with
  | done h2 => omega
  | abort h2 h3 => omega
  | step h2 h3 _ ih => exact ih (by omega)

theorem wrapWhile_complete (width p : Nat) :
    ∀ {h tw r}, HeightSpec width p h tw r →
      ∀ fuel, tw < fuel → wrapWhile width p fuel h tw = some r := by
  intro h tw r hd
  induction hd with
  | @done h tw h2 =>
    intro fuel hf
    match fuel, hf with
    | f + 1, _ => simp [wrapWhile, Nat.not_lt.mpr h2]
  | @abort h tw h2 h3 =>
    intro fuel hf
    match fuel, hf with
    | f + 1, _ => simp [wrapWhile, h2, h3]
  | @step h tw r h2 h3 hsub ih =>
    intro fuel hf
    rcases Nat.lt_or_ge p width with hp | hp
    · match fuel, hf with
      | f + 1, hf =>
        have hstep : wrapWhile width p (f + 1) h tw
            = wrapWhile width p f (h + 1) (tw - width + p) := by
          simp [wrapWhile, h2, Nat.not_lt.mpr h3]
        rw [hstep]
        exact ih f (by omega)
    · exfalso
      have hpw : p = width := Nat.le_antisymm h3 hp
      subst hpw
      exact heightSpec_stall p _ _ _ (by omega) hsub

/-- C1: `get_height_for_line` returns the sentinel `10 ** 8` when the width is
zero, and otherwise computes exactly the spec's loop: it starts from height 1
and the line's display width plus the first-row prefix width
(`is_continuation = false`), repeatedly increments the height, subtracts the
width and adds the continuation prefix width (`is_continuation = true`) back
while the text overflows, aborting with the sentinel whenever the continuation
prefix alone exceeds the width. -/
theorem get_height_for_line_matches_spec (lw : Nat → Nat) (lineno width : Nat)
    (glp : Nat → Nat → Bool → Nat) :
    (width = 0 → get_height_for_line lw lineno width glp = some SENTINEL) ∧
    (width ≠ 0 → ∀ r : Nat,
      get_height_for_line lw lineno width glp = some r ↔
        HeightSpec width (glp width lineno true) 1
          (lw lineno + glp width lineno false) r) := by
  constructor
  · intro h0; simp [get_height_for_line, h0]
  · intro hne r
    unfold get_height_for_line
    rw [if_neg hne]
    constructor
    · exact wrapWhile_sound _ _ _ _ _ _
    · intro hd
      exact wrapWhile_complete _ _ hd _ (Nat.lt_succ_self _)

/-- Witness for C1 at a concrete input: a line of display width 5 wrapped at
width 2 with no prefix has height 3, and this is equivalent to the spec-side
loop derivation. -/
theorem get_height_for_line_matches_spec_witness :
    get_height_for_line (fun _ => 5) 0 2 (fun _ _ _ => 0) = some 3 ↔
      HeightSpec 2 0 1 5 3 := by
  have h := (get_height_for_line_matches_spec (fun _ => 5) 0 2
    (fun _ _ _ => 0)).2 (by decide) 3
  simpa using h

theorem wrapWhile_zero_pref (k : Nat) (hk : 0 < k) :
    ∀ fuel h tw, tw < fuel →
      wrapWhile k 0 fuel h tw = some (h + (tw - 1) / k) := by
  intro fuel
  induction fuel with
  | zero => intro h tw hf; omega
  | succ f ih =>
    intro h tw hf
    by_cases h1 : k < tw
    · have hstep : wrapWhile k 0 (f + 1) h tw
          = wrapWhile k 0 f (h + 1) (tw - k) := by
        simp [wrapWhile, h1]
      rw [hstep, ih (h + 1) (tw - k) (by omega)]
      have h2 : (tw - 1) / k = (tw - k - 1) / k + 1 := by
        have hk2 : k ≤ tw - 1 := by omega
        rw [Nat.div_eq_sub_div hk hk2]
        have h3 : tw - 1 - k = tw - k - 1 := by omega
        rw [h3]
      rw [h2]
      congr 1
      omega
    · have h2 : tw ≤ k := Nat.le_of_not_lt h1
      have h3 : (tw - 1) / k = 0 := Nat.div_eq_of_lt (by omega)
      simp [wrapWhile, h1, h3]

theorem one_add_pred_div (k w : Nat) (hk : 0 < k) :
    1 + (w - 1) / k = max 1 ((w + k - 1) / k) := by
  rcases Nat.eq_zero_or_pos w with h0 | h1
  · subst h0
    have h2 : (0 + k - 1) / k = 0 := Nat.div_eq_of_lt (by omega)
    have h3 : (0 - 1) / k = 0 := Nat.div_eq_of_lt (by omega)
    rw [h2, h3]
    omega
  · have h2 : w + k - 1 = (w - 1) + k := by omega
    rw [h2, Nat.add_div_right _ hk,
      Nat.max_eq_right (Nat.le_add_left 1 _)]
    omega

/-- C2 counterexample: a line of display width 0 (an empty line) wrapped at
width 1 gets height 1 from `get_height_for_line`, whereas the claim's
`ceil(w / k)` is `ceil(0 / 1) = 0` — the claim fails at `w = 0`. -/
theorem get_height_for_line_ceil_cex :
    get_height_for_line (fun _ => 0) 0 1 (fun _ _ _ => 0) ≠
      some (ceil_div 0 1) := by decide

/-- C2 (amended): for a line of display width `w`, no prefix, and wrap width
`k > 0`, `get_height_for_line` returns `max 1 (ceil(w / k))`; this equals
`ceil(w / k)` for every `w ≥ 1` and is 1 (not 0) for the empty line. -/
theorem get_height_for_line_no_prefix_ceil (lw : Nat → Nat) (i k : Nat)
    (hk : 0 < k) :
    get_height_for_line lw i k (fun _ _ _ => 0) =
      some (max 1 (ceil_div (lw i) k)) := by
  unfold get_height_for_line
  rw [if_neg (Nat.pos_iff_ne_zero.mp hk)]
  show wrapWhile k 0 (lw i + 0 + 1) 1 (lw i + 0) = _
  rw [wrapWhile_zero_pref k hk _ 1 (lw i + 0) (by omega)]
  rw [Nat.add_zero]
  rw [one_add_pred_div k (lw i) hk]
  rfl

/-- Witness for C2's amended theorem at a concrete input: a line of display
width 5 wrapped at width 2 has height `max 1 (ceil(5 / 2)) = 3`. -/
theorem get_height_for_line_no_prefix_ceil_witness :
    get_height_for_line (fun _ => 5) 1 2 (fun _ _ _ => 0) =
      some (max 1 (ceil_div 5 2)) :=
  get_height_for_line_no_prefix_ceil (fun _ => 5) 1 2 (by decide)

/-- C3 counterexample: for a content with one line, the negative index `-1`
is below the valid range, yet `__getitem__` does not signal a failure — the
`lineno < line_count` check passes and the list-backed `get_line` returns the
last line via Python's negative indexing. -/
theorem UIContent_getitem_negative_cex :
    UIContent_getitem 1 (pyListGet [[("", "x")]]) (-1) = some [("", "x")] := by
  decide

/-- C3 (amended): indexing a `Content` at `i ≥ line_count` raises
`IndexError`; any index below `line_count` — including negative ones — is
passed to `get_line` unchecked, so out-of-range failures are only guaranteed
on the upper side. -/
theorem UIContent_getitem_range_check (line_count : Int)
    (get_line : Int → Option (List Frag2)) (i : Int) :
    (line_count ≤ i → UIContent_getitem line_count get_line i = none) ∧
    (i < line_count → UIContent_getitem line_count get_line i = get_line i) := by
  constructor
  · intro h
    simp [UIContent_getitem, Int.not_lt.mpr h]
  · intro h
    simp [UIContent_getitem, h]

/-- Witness for C3's amended theorem at concrete inputs. -/
theorem UIContent_getitem_range_check_witness :
    UIContent_getitem 2 (fun _ => some []) 5 = none ∧
    UIContent_getitem 2 (fun _ => some []) 1 = some [] :=
  ⟨(UIContent_getitem_range_check 2 (fun _ => some []) 5).1 (by decide),
   (UIContent_getitem_range_check 2 (fun _ => some []) 1).2 (by decide)⟩

/-- C4 counterexample: a mouse event delivered to a focused `BufferControl`
before any content has been rendered does not return the `NotImplemented`
marker — the handler falls through and returns Python's implicit `None`. -/
theorem bc_mouse_handler_unrendered_cex :
    (bc_mouse_handler stUnrendered 0 ⟨⟨0, 0⟩, MouseEventType.mouseUp⟩).1 ≠
      MouseRet.notImplemented := by
  decide

/-- C4 (amended): `FormattedTextControl.mouse_handler` returns
`NotImplemented` when no fragments have been rendered and when the click row
lies past the rendered lines, never raising; a focused `BufferControl` with
no recorded processed-line function falls through and returns the implicit
`None` — not the `NotImplemented` marker — and also never raises. -/
theorem mouse_handler_no_render_not_handled :
    (∀ ev : MouseEvent, ftc_mouse_handler none ev = MouseRet.notImplemented) ∧
    (∀ (frs : List Frag) (ev : MouseEvent),
      ((split_lines frs).length : Int) ≤ ev.position.y →
      ftc_mouse_handler (some frs) ev = MouseRet.notImplemented) ∧
    (∀ (st : BCState) (now : Rat) (ev : MouseEvent),
      st.focused = true → st.last_proc = none →
      (bc_mouse_handler st now ev).1 = MouseRet.pyNone) := by
  refine ⟨fun ev => rfl, ?_, ?_⟩
  · intro frs ev hy
    have h0 : (0 : Int) ≤ ev.position.y :=
      le_trans (Int.ofNat_nonneg _) hy
    have hnone : pyListGet (split_lines frs) ev.position.y = none := by
      unfold pyListGet
      rw [if_pos h0]
      exact List.get?_eq_none.mpr ((Int.le_toNat h0).mpr hy)
    unfold ftc_mouse_handler
    by_cases he : frs.isEmpty
    · simp [he]
    · simp [he, hnone]
  · intro st now ev hf hp
    simp [bc_mouse_handler, hf, hp]

/-- Witness for C4's amended theorem at concrete inputs. -/
theorem mouse_handler_no_render_witness :
    ftc_mouse_handler none ⟨⟨0, 0⟩, MouseEventType.mouseDown⟩ =
      MouseRet.notImplemented ∧
    ftc_mouse_handler (some [("", "ab", none)]) ⟨⟨0, 5⟩, MouseEventType.mouseDown⟩ =
      MouseRet.notImplemented ∧
    (bc_mouse_handler stUnrendered 0 ⟨⟨0, 0⟩, MouseEventType.mouseDown⟩).1 =
      MouseRet.pyNone :=
  ⟨mouse_handler_no_render_not_handled.1 _,
   mouse_handler_no_render_not_handled.2.1 _ _ (by decide),
   mouse_handler_no_render_not_handled.2.2 stUnrendered 0 _ rfl rfl⟩

/-- C10: with no attached search control, every access to the `search_state`
property allocates and returns a fresh default `SearchState` (empty text,
forward, case-sensitive); mutating the object returned by one access is not
observable in a later access, which returns a distinct object that again
holds the default value. -/
theorem search_state_fresh_default (st : SSStore) (v : SearchStateM) :
    ssRead (bc_search_state none st).2 (bc_search_state none st).1 =
      some default_search_state ∧
    ssRead
      (bc_search_state none (ssWrite (bc_search_state none st).2
        (bc_search_state none st).1 v)).2
      (bc_search_state none (ssWrite (bc_search_state none st).2
        (bc_search_state none st).1 v)).1 =
      some default_search_state ∧
    (bc_search_state none (ssWrite (bc_search_state none st).2
      (bc_search_state none st).1 v)).1 ≠ (bc_search_state none st).1 := by
  have hlen :
      ((st.heap ++ [default_search_state]).set st.heap.length v).length =
        st.heap.length + 1 := by
    simp
  refine ⟨?_, ?_, ?_⟩
  · simp [bc_search_state, ssAlloc, ssRead]
  · simp [bc_search_state, ssAlloc, ssRead, ssWrite]
    rw [List.getElem_append_right (by simp)]
    simp
  · simp [bc_search_state, ssAlloc, ssWrite, hlen]

theorem scanLineForMarker_eq (marker : String) (line : List Frag2) :
    ∀ x, scanLineForMarker marker x line =
      if lineHasMarker marker line then some (x + markerCol marker line)
      else none := by
  induction line with
  | nil => intro x; simp [scanLineForMarker, lineHasMarker, markerCol]
  | cons f rest ih =>
    intro x
    rcases f with ⟨s, t⟩
    by_cases hc : strContains s marker
    · simp [scanLineForMarker, lineHasMarker, markerCol, hc]
    · have hc2 : strContains s marker = false := by
        simpa using hc
      simp [scanLineForMarker, lineHasMarker, markerCol, hc2,
        ih (x + t.length), Nat.add_assoc]
      rw [hc2, Bool.false_or]

theorem scanMarkerGo_eq (marker : String) :
    ∀ (lines : List (List Frag2)) (y : Nat),
      scanMarkerGo marker y lines =
        match firstMarkerRow marker lines with
        | some j =>
          some ⟨(markerCol marker ((lines.get? j).getD []) : Int),
            ((y + j : Nat) : Int)⟩
        | none => none := by
  intro lines
  induction lines with
  | nil => intro y; simp [scanMarkerGo, firstMarkerRow]
  | cons l rest ih =>
    intro y
    by_cases hl : lineHasMarker marker l
    · simp [scanMarkerGo, scanLineForMarker_eq, hl, firstMarkerRow]
    · simp only [scanMarkerGo, scanLineForMarker_eq, hl, if_false,
        Bool.false_eq_true, firstMarkerRow, ih (y + 1)]
      cases hfr : firstMarkerRow marker rest with
      | none => simp [hfr]
      | some j =>
        simp only [hfr, Option.map_some]
        have h1 : y + 1 + j = y + (j + 1) := by omega
        simp [h1]

theorem scanMarker_eq (marker : String) (lines : List (List Frag2)) :
    scanMarker marker lines = firstMarkerPoint marker lines := by
  unfold scanMarker firstMarkerPoint
  rw [scanMarkerGo_eq]
  cases firstMarkerRow marker lines <;> simp

/-- C8: the content produced by `FormattedTextControl.create_content` places
the cursor at the `(column, row)` where the `[SetCursorPosition]` marker is
first encountered in the stripped fragment lines (the first marked line, at
the total text length of the fragments before the first marked fragment),
with the caller-supplied `get_cursor_position` taking precedence when
provided and `Point(0, 0)` as the final fallback; the menu position is the
analogous `[SetMenuPosition]` scan. -/
theorem ftc_marker_positions (frs : List Frag)
    (cb : Option (Unit → Option Point)) (sc : Bool) :
    (ftc_create_content frs cb sc).1.cursor_position =
      (match cb with
       | some f => f ()
       | none =>
         firstMarkerPoint "[SetCursorPosition]" (ftc_fragment_lines frs)).getD
        ⟨0, 0⟩ ∧
    (ftc_create_content frs cb sc).1.menu_position =
      firstMarkerPoint "[SetMenuPosition]" (ftc_fragment_lines frs) := by
  constructor
  · cases cb <;> simp [ftc_create_content, scanMarker_eq]
  · simp [ftc_create_content, scanMarker_eq]

/-- C9: every line of the content produced by `BufferControl.create_content`
is the line's processed fragments with exactly one extra blank-styled
single-space fragment appended — on every line, not only the cursor line. -/
theorem bc_get_line_trailing_space (lexed : List Char → Int → List Frag2)
    (proc : DocumentM → Nat → Option Nat → Int → List Frag2 → ProcessedLineM)
    (width : Nat) (height : Option Nat) (st : BCState) (pa : Bool) (i : Nat) :
    (bc_create_content lexed proc width height st pa).1.get_line i =
      (bc_processed_line lexed proc width height st pa (i : Int)).fragments ++
        [("", " ")] ∧
    ((bc_create_content lexed proc width height st pa).1.get_line i).getLast? =
      some ("", " ") ∧
    ((bc_create_content lexed proc width height st pa).1.get_line i).dropLast =
      (bc_processed_line lexed proc width height st pa (i : Int)).fragments := by
  refine ⟨rfl, ?_, ?_⟩
  · show ((bc_processed_line lexed proc width height st pa
      (i : Int)).fragments ++ [("", " ")]).getLast? = some ("", " ")
    simp
  · show ((bc_processed_line lexed proc width height st pa
      (i : Int)).fragments ++ [("", " ")]).dropLast =
        (bc_processed_line lexed proc width height st pa (i : Int)).fragments
    simp

/-- C7: when search preview is active (preview enabled, an attached search
control with non-empty text, and this control the active search target),
`BufferControl.create_content` renders the search-preview document derived
from the real one by `document_for_search`, and the buffer's real document —
text, cursor position and selection — is left unchanged by the rendering. -/
theorem bc_create_content_search_preview
    (lexed : List Char → Int → List Frag2)
    (proc : DocumentM → Nat → Option Nat → Int → List Frag2 → ProcessedLineM)
    (width : Nat) (height : Option Nat) (st : BCState) (sc : SearchControlM)
    (h1 : st.preview_search = true)
    (h2 : st.search_control = some sc)
    (h3 : sc.buffer_text ≠ [])
    (h4 : st.is_search_target = true) :
    renderedDocument st false =
      document_for_search st.buffer
        ⟨sc.buffer_text, sc.searcher_search_state.direction,
          sc.searcher_search_state.ignore_case⟩ ∧
    (bc_create_content lexed proc width height st false).2.buffer =
      st.buffer ∧
    (bc_create_content lexed proc width height st false).1.line_count =
      line_count_of
        (document_for_search st.buffer
          ⟨sc.buffer_text, sc.searcher_search_state.direction,
            sc.searcher_search_state.ignore_case⟩).text ∧
    (bc_create_content lexed proc width height st false).1.get_line 0 =
      (proc
        (document_for_search st.buffer
          ⟨sc.buffer_text, sc.searcher_search_state.direction,
            sc.searcher_search_state.ignore_case⟩)
        width height 0
        (lexed
          (document_for_search st.buffer
            ⟨sc.buffer_text, sc.searcher_search_state.direction,
              sc.searcher_search_state.ignore_case⟩).text 0)).fragments ++
        [("", " ")] := by
  have hbt : sc.buffer_text.isEmpty = false := by
    cases hcase : sc.buffer_text with
    | nil => exact absurd hcase h3
    | cons a l => simp [List.isEmpty]
  have hpn : preview_now st false = true := by
    simp [preview_now, h1, h2, h4, hbt]
  have hrd : renderedDocument st false =
      document_for_search st.buffer
        ⟨sc.buffer_text, sc.searcher_search_state.direction,
          sc.searcher_search_state.ignore_case⟩ := by
    unfold renderedDocument
    rw [h2, hpn]
    simp [search_state_of, h2]
  refine ⟨hrd, rfl, ?_, ?_⟩
  · show line_count_of (renderedDocument st false).text = _
    rw [hrd]
  · show (bc_processed_line lexed proc width height st false
      ((0 : Nat) : Int)).fragments ++ [("", " ")] = _
    unfold bc_processed_line
    rw [hrd]
    rfl

/-- Witness for C7: the concrete preview state over `"foo bar"` with search
text `"ba"` applied to the theorem. -/
theorem bc_create_content_search_preview_witness :
    renderedDocument stPreview false =
      document_for_search stPreview.buffer
        ⟨scBa.buffer_text, scBa.searcher_search_state.direction,
          scBa.searcher_search_state.ignore_case⟩ ∧
    (bc_create_content lexId procId 10 none stPreview false).2.buffer =
      stPreview.buffer ∧
    (bc_create_content lexId procId 10 none stPreview false).1.line_count =
      line_count_of
        (document_for_search stPreview.buffer
          ⟨scBa.buffer_text, scBa.searcher_search_state.direction,
            scBa.searcher_search_state.ignore_case⟩).text :=
  have h := bc_create_content_search_preview lexId procId 10 none stPreview
    scBa rfl rfl (by decide) rfl
  ⟨h.1, h.2.1, h.2.2.1⟩

theorem bc_press_eq (st : BCState) (t : Rat) (gpl : Int → ProcessedLineM)
    (x y : Int) (hf : st.focused = true) (hp : st.last_proc = some gpl) :
    bc_mouse_handler st t ⟨⟨x, y⟩, MouseEventType.mouseDown⟩ =
      (MouseRet.pyNone,
        { st with buffer :=
            { st.buffer with
                selection_state := none
                cursor_position :=
                  translate_row_col_to_index st.buffer.text y
                    ((gpl y).display_to_source x) } }) := by
  simp [bc_mouse_handler, hf, hp, bc_mouse_focused, exit_selection]

/-- C5: for a focused, rendered `BufferControl`, a mouse press at `(x, y)`
clears any existing selection and sets the cursor to the offset obtained by
mapping `x` through line `y`'s recorded `display_to_source` map and
converting `(y, mapped column)` to a document offset; a subsequent release
whose translated offset differs from the cursor by more than 1 (with no
double click pending) starts a character-type selection anchored at the
press offset with the cursor at the release offset. -/
theorem bc_press_release_selection (st : BCState) (t1 t2 : Rat)
    (gpl : Int → ProcessedLineM) (x y x2 y2 : Int)
    (hf : st.focused = true) (hp : st.last_proc = some gpl)
    (hnc : st.last_click_timestamp = none) :
    ((bc_mouse_handler st t1
        ⟨⟨x, y⟩, MouseEventType.mouseDown⟩).2.buffer.selection_state = none ∧
     (bc_mouse_handler st t1
        ⟨⟨x, y⟩, MouseEventType.mouseDown⟩).2.buffer.cursor_position =
       translate_row_col_to_index st.buffer.text y
         ((gpl y).display_to_source x)) ∧
    (1 < (translate_row_col_to_index st.buffer.text y
            ((gpl y).display_to_source x) -
          translate_row_col_to_index st.buffer.text y2
            ((gpl y2).display_to_source x2)).natAbs →
      ((bc_mouse_handler
          (bc_mouse_handler st t1 ⟨⟨x, y⟩, MouseEventType.mouseDown⟩).2 t2
          ⟨⟨x2, y2⟩, MouseEventType.mouseUp⟩).2.buffer.selection_state =
        some ⟨translate_row_col_to_index st.buffer.text y
            ((gpl y).display_to_source x), SelectionType.CHARACTERS⟩ ∧
       (bc_mouse_handler
          (bc_mouse_handler st t1 ⟨⟨x, y⟩, MouseEventType.mouseDown⟩).2 t2
          ⟨⟨x2, y2⟩, MouseEventType.mouseUp⟩).2.buffer.cursor_position =
        translate_row_col_to_index st.buffer.text y2
          ((gpl y2).display_to_source x2))) := by
  rw [bc_press_eq st t1 gpl x y hf hp]
  refine ⟨⟨rfl, rfl⟩, ?_⟩
  intro hdiff
  simp only [bc_mouse_handler, hf, if_true, hp, bc_mouse_focused, hnc,
    start_selection]
  rw [if_pos hdiff]
  exact ⟨rfl, rfl⟩

/-- Witness for C5: the spec's scenario — document `"hello"`, press at
offset 0, release at offset 3 — selects `[0, 3)`:
the selection is anchored at 0 with the cursor at 3. -/
theorem bc_press_release_selection_witness :
    (bc_mouse_handler
        (bc_mouse_handler stHello 0 ⟨⟨0, 0⟩, MouseEventType.mouseDown⟩).2 1
        ⟨⟨3, 0⟩, MouseEventType.mouseUp⟩).2.buffer.selection_state =
      some ⟨0, SelectionType.CHARACTERS⟩ ∧
    (bc_mouse_handler
        (bc_mouse_handler stHello 0 ⟨⟨0, 0⟩, MouseEventType.mouseDown⟩).2 1
        ⟨⟨3, 0⟩, MouseEventType.mouseUp⟩).2.buffer.cursor_position = 3 := by
  have h := bc_press_release_selection stHello 0 1 gplHello 0 0 3 0 rfl rfl rfl
  have h2 := h.2 (by decide)
  exact ⟨h2.1.trans (by decide), h2.2.trans (by decide)⟩

/-- C6: for a focused, rendered `BufferControl`, a release whose translated
offset equals the current cursor and which occurs less than 300 ms
(0.3 seconds) after the previously recorded release expands the selection to
the word boundaries around the cursor: the selection is anchored at the word
start, the cursor moves to the word end, and the release timestamp is
re-recorded for the next call. -/
theorem bc_double_click_word_selection (st : BCState) (t1 now : Rat)
    (gpl : Int → ProcessedLineM) (x y : Int)
    (hf : st.focused = true) (hp : st.last_proc = some gpl)
    (hts : st.last_click_timestamp = some t1) (hdc : now - t1 < 3 / 10)
    (hidx : translate_row_col_to_index st.buffer.text y
      ((gpl y).display_to_source x) = st.buffer.cursor_position) :
    (bc_mouse_handler st now
        ⟨⟨x, y⟩, MouseEventType.mouseUp⟩).2.buffer.selection_state =
      some ⟨st.buffer.cursor_position +
          (find_boundaries_of_current_word st.buffer.text
            st.buffer.cursor_position).1,
        SelectionType.CHARACTERS⟩ ∧
    (bc_mouse_handler st now
        ⟨⟨x, y⟩, MouseEventType.mouseUp⟩).2.buffer.cursor_position =
      st.buffer.cursor_position +
        (find_boundaries_of_current_word st.buffer.text
          st.buffer.cursor_position).2 ∧
    (bc_mouse_handler st now
        ⟨⟨x, y⟩, MouseEventType.mouseUp⟩).2.last_click_timestamp =
      some now := by
  have hdc2 : decide (now - t1 < 3 / 10) = true := decide_eq_true hdc
  have hzero : ¬ 1 <
      (st.buffer.cursor_position -
        translate_row_col_to_index st.buffer.text y
          ((gpl y).display_to_source x)).natAbs := by
    rw [hidx, Int.sub_self]
    decide
  simp only [bc_mouse_handler, hf, if_true, hp, bc_mouse_focused, hts, hdc2,
    start_selection, if_true]
  rw [if_neg hzero]
  refine ⟨rfl, ?_, by trivial⟩
  show st.buffer.cursor_position +
      (find_boundaries_of_current_word st.buffer.text
        st.buffer.cursor_position).1 +
      ((find_boundaries_of_current_word st.buffer.text
          st.buffer.cursor_position).2 -
        (find_boundaries_of_current_word st.buffer.text
          st.buffer.cursor_position).1) = _
  omega

/-- Witness for C6: the spec's scenario — document `"foo bar"`, a double
click (release at time 0, second release at time 1/10 s) inside `"bar"` —
selects offsets 4 to 7: selection anchored at 4, cursor at 7. -/
theorem bc_double_click_word_selection_witness :
    (bc_mouse_handler stFooBar (1 / 10)
        ⟨⟨5, 0⟩, MouseEventType.mouseUp⟩).2.buffer.selection_state =
      some ⟨4, SelectionType.CHARACTERS⟩ ∧
    (bc_mouse_handler stFooBar (1 / 10)
        ⟨⟨5, 0⟩, MouseEventType.mouseUp⟩).2.buffer.cursor_position = 7 := by
  have h := bc_double_click_word_selection stFooBar 0 (1 / 10) gplFooBar 5 0
    rfl rfl rfl (by norm_num) (by decide)
  exact ⟨h.1.trans (by decide), h.2.1.trans (by decide)⟩
